import Mathlib

/-!
# Verification of the `bee` tangle cache and snapshot codec

Shallow embedding of `src/bee-tangle/src/tangle.rs` and
`src/bee-snapshot/src/snapshot.rs`.

The tangle is modelled as a sequential state machine.  The sharded concurrent
map `shashmap::HashMap` and the `Vertex` record are not part of the provided
sources; they are modelled from the specification (§4.2, §4.3): a map keyed by
`MessageId` supporting `insert` (returning the previous value), cloned `get`,
`contains`, `remove`, `len` and an in-place transform (`do_for_mut`).  The
`lru::LruCache` dependency is modelled from its documented semantics
(`put`, `pop_lru`, `len`, `cap`).  Hook calls are recorded as an event trace;
the answers of the back-end to `get` and `fetch_approvers` are supplied by an
environment.  Non-termination (and panics) of an operation are modelled by
`Option`: `none` means the call does not return.
-/

namespace BeeTangle

/-- Message identifiers are opaque fixed-size values; modelled as `Nat`. -/
abbrev MessageId := Nat

/-- A message: an immutable payload exposing its two parent ids
(`message.parent1()`, `message.parent2()` in `tangle.rs`). -/
structure Message where
  parent1 : MessageId
  parent2 : MessageId
  payload : Nat
deriving DecidableEq

/-- A `MessageRef` is a reference-counted handle to a `Message`; in the model it
is the message value itself. -/
abbrev MessageRef := Message

/-- Modelled from the spec: `Vertex` (§4.2) is the trivial aggregate of a
message and its metadata; `vertex.rs` is not among the provided sources. -/
structure Vertex (T : Type) where
  message : Message
  metadata : T
deriving DecidableEq

/-- Modelled from the spec: the concurrent maps of §4.3 (`shashmap::HashMap`,
not among the provided sources) are modelled as association lists with unique
keys.  `alLookup` is the read operation. -/
def alLookup {V : Type} : List (MessageId × V) → MessageId → Option V
  | [], _ => none
  | (k, v) :: rest, key => if k = key then some v else alLookup rest key

/-- Modelled from the spec: map insertion.  Returns the previous value (like
`HashMap::insert` in Rust, and as required by the usage in `tangle.rs`, which
both tests `is_none()` on the result and uses `insert` to overwrite in
`update_metadata`). -/
def alInsert {V : Type} : List (MessageId × V) → MessageId → V →
    Option V × List (MessageId × V)
  | [], key, v => (none, [(key, v)])
  | (k, w) :: rest, key, v =>
    if k = key then
      (some w, (key, v) :: rest)
    else
      let r := alInsert rest key v
      (r.1, (k, w) :: r.2)

/-- Insertion into a hash set, modelled as a duplicate-free list. -/
def setInsert (l : List MessageId) (x : MessageId) : List MessageId :=
  if l.contains x then l else l ++ [x]

/-- Rust `Option::filter`. -/
def optFilter {α : Type} (p : α → Bool) : Option α → Option α
  | some a => if p a then some a else none
  | none => none

/-- Model of `lru::LruCache` (external crate): entries most-recent first,
bounded by `cap`. -/
structure LruCache where
  entries : List (MessageId × Nat)
  cap : Nat
deriving DecidableEq

/-- Rust `LruCache::new(cap)`. -/
def LruCache.new (cap : Nat) : LruCache := ⟨[], cap⟩

/-- Rust `LruCache::put(k, v)`: insert or refresh `k`, marking it most recent;
evicts the least-recently used entry when the capacity would be exceeded. -/
def LruCache.put (c : LruCache) (k : MessageId) (v : Nat) : LruCache :=
  ⟨(((k, v) :: c.entries.filter (fun e => ¬ e.1 = k)).take c.cap), c.cap⟩

/-- Rust `LruCache::len()`. -/
def LruCache.len (c : LruCache) : Nat := c.entries.length

/-- Rust `LruCache::pop_lru()`: remove and return the least-recently used entry. -/
def LruCache.popLru (c : LruCache) : Option (MessageId × LruCache) :=
  match c.entries.getLast? with
  | none => none
  | some (k, _) => some (k, ⟨c.entries.dropLast, c.cap⟩)

/-- A recorded call into the storage hooks (`Hooks` trait in `tangle.rs`). -/
inductive HookEvent (T : Type) where
  | insert (id : MessageId) (msg : Message) (meta : T)
  | insertApprover (parent : MessageId) (child : MessageId)
  | get (id : MessageId)
  | fetchApprovers (id : MessageId)
deriving DecidableEq

/-- Answers of the back-end for the two hooks whose results the tangle
inspects.  `.error` models a hook error (`Err` in Rust); errors of the write
hooks `insert` / `insert_approver` are logged and swallowed by `tangle.rs`,
so their results need not be modelled. -/
structure HookEnv (T : Type) where
  get : MessageId → Except Unit (Option (Message × T))
  fetchApprovers : MessageId → Except Unit (Option (List MessageId))

/-- The null environment: `NullHooks` returns `Ok(None)` everywhere. -/
def nullEnv (T : Type) : HookEnv T :=
  ⟨fun _ => Except.ok none, fun _ => Except.ok none⟩

/-- The state of a `Tangle<T>`: the vertex map, the children map
(child set plus the `exhaustive` flag), the atomic cache counter and the LRU
cache queue. -/
structure Tangle (T : Type) where
  vertices : List (MessageId × Vertex T)
  children : List (MessageId × (List MessageId × Bool))
  cacheCounter : Nat
  cacheQueue : LruCache
deriving DecidableEq

/-- Constant `CACHE_LEN: usize = 1_000_000` (`tangle.rs` line 25). -/
def CACHE_LEN : Nat := 1000000

/-- Rust `Tangle::new(hooks)`: empty maps, zero counter,
`LruCache::new(CACHE_LEN + 1)`. -/
def Tangle.new (T : Type) : Tangle T :=
  ⟨[], [], 0, LruCache.new (CACHE_LEN + 1)⟩

/-- Rust `Tangle::with_capacity(self, cap)`: replaces the cache queue by
`LruCache::new(cap + 1)`, keeping the other fields. -/
def Tangle.withCapacity {T : Type} (s : Tangle T) (cap : Nat) : Tangle T :=
  { s with cacheQueue := LruCache.new (cap + 1) }

/-- Rust `Tangle::len()`: the number of vertices. -/
def Tangle.len {T : Type} (s : Tangle T) : Nat := s.vertices.length

/-- Rust `generate_cache_index`: `cache_counter.fetch_add(1)` — returns the old
counter and increments it. -/
def generateCacheIndex {T : Type} (s : Tangle T) : Nat × Tangle T :=
  (s.cacheCounter, { s with cacheCounter := s.cacheCounter + 1 })

/-- Constant `CACHE_THRESHOLD` in `perform_eviction`. -/
def CACHE_THRESHOLD : Nat := 1024

/-- The body of the `loop` in `perform_eviction`, with explicit fuel.  Each
iteration recomputes `self.len()`; since the map removals are deferred to a
task spawned only after the loop, the vertex count `len` does not change
across iterations and is passed as a constant.  `some (cache, ids)` is
reaching `break` with the final queue state and the collected `to_remove`
list; `none` is running out of fuel (the loop still running), or the panic of
`pop_lru().expect(..)` on an empty queue. -/
def evictionLoop (fuel : Nat) (len : Nat) (cache : LruCache)
    (toRemove : List MessageId) : Option (LruCache × List MessageId) :=
  match fuel with
  | 0 => none
  | fuel + 1 =>
    if len < cache.cap then
      some (cache, toRemove.reverse)
    else
      if cache.len = cache.cap then
        match cache.popLru with
        | none => none
        | some (k, cache') => evictionLoop fuel len cache' (k :: toRemove)
      else
        evictionLoop fuel len cache toRemove

/-- Rust `perform_eviction`: early return when
`len < cache_queue.cap() + CACHE_THRESHOLD`; otherwise run the eviction loop
and (in the code, in a spawned task) remove the collected ids from the vertex
and children maps.  `none` models a call that does not return. -/
def performEviction {T : Type} (fuel : Nat) (s : Tangle T) : Option (Tangle T) :=
  if s.len < s.cacheQueue.cap + CACHE_THRESHOLD then
    some s
  else
    match evictionLoop fuel s.len s.cacheQueue [] with
    | none => none
    | some (cache', toRemove) =>
      some { s with
        cacheQueue := cache'
        vertices := toRemove.foldl (fun m k => m.filter (fun e => ¬ e.1 = k)) s.vertices
        children := toRemove.foldl (fun m k => m.filter (fun e => ¬ e.1 = k)) s.children }

/-- Rust `add_children_inner(parents, child)`: for each parent, add `child` to its
child set when the entry exists (`do_for_mut`, leaving the exhaustive flag
unchanged), otherwise insert a fresh `({child}, false)` entry; then call
`hooks.insert_approver(parent, child)` for each parent. -/
def addChildrenInner {T : Type} (s : Tangle T) (parents : List MessageId)
    (child : MessageId) : Tangle T × List (HookEvent T) :=
  let s := parents.foldl
    (fun s parent =>
      match alLookup s.children parent with
      | some entry =>
        { s with children := (alInsert s.children parent (setInsert entry.1 child, entry.2)).2 }
      | none =>
        { s with children := (alInsert s.children parent ([child], false)).2 })
    s
  (s, parents.map (fun p => HookEvent.insertApprover p child))

/-- Rust `insert_inner(id, message, metadata)`: insert the vertex; when no prior
entry existed, put a fresh cache-queue entry and add the children edges; run
eviction; return `Some(tx)` — unconditionally, where `tx` is the message
handle of the vertex just built. -/
def insertInner {T : Type} (fuel : Nat) (s : Tangle T) (id : MessageId)
    (msg : Message) (meta : T) :
    Option (Option MessageRef × Tangle T × List (HookEvent T)) :=
  let parents := [msg.parent1, msg.parent2]
  let old := (alInsert s.vertices id ⟨msg, meta⟩).1
  let s := { s with vertices := (alInsert s.vertices id ⟨msg, meta⟩).2 }
  let step :=
    if old.isNone then
      let idx := (generateCacheIndex s).1
      let s := (generateCacheIndex s).2
      let s := { s with cacheQueue := s.cacheQueue.put id idx }
      addChildrenInner s parents id
    else
      (s, [])
  match performEviction fuel step.1 with
  | none => none
  | some s => some (some msg, s, step.2)

/-- Rust `Tangle::insert(id, message, metadata)`: run `insert_inner`, then call
`hooks.insert(id, message, metadata)` (its error, if any, is logged and
swallowed), and return the result of `insert_inner`. -/
def Tangle.insert {T : Type} (fuel : Nat) (s : Tangle T) (id : MessageId)
    (msg : Message) (meta : T) :
    Option (Option MessageRef × Tangle T × List (HookEvent T)) :=
  match insertInner fuel s id msg meta with
  | none => none
  | some (r, s, evs) => some (r, s, evs ++ [HookEvent.insert id msg meta])

/-- Rust `children_inner(id)`: take the cloned children entry, skipping entries
not marked exhaustive; when absent, call `hooks.fetch_approvers` (errors and
`Ok(None)` both yield the empty list), store the fetched set with the
exhaustive flag set to `true`, and return the freshly stored set.  Always
returns a set. -/
def childrenInner {T : Type} (env : HookEnv T) (s : Tangle T) (id : MessageId) :
    List MessageId × Tangle T × List (HookEvent T) :=
  match optFilter (fun c => c.2) (alLookup s.children id) with
  | some entry => (entry.1, s, [])
  | none =>
    let toInsert :=
      match env.fetchApprovers id with
      | Except.error _ => []
      | Except.ok none => []
      | Except.ok (some approvers) => approvers
    let stored := toInsert.foldl setInsert []
    let s := { s with children := (alInsert s.children id (stored, true)).2 }
    let res :=
      match alLookup s.children id with
      | some entry => entry.1
      | none => []
    (res, s, [HookEvent.fetchApprovers id])

/-- Rust `Tangle::get_children(id)`: clone of the set from `children_inner`. -/
def Tangle.getChildren {T : Type} (env : HookEnv T) (s : Tangle T)
    (id : MessageId) : Option (List MessageId) × Tangle T × List (HookEvent T) :=
  let r := childrenInner env s id
  (some r.1, r.2.1, r.2.2)

/-- Rust `pull_message(id)`: when the vertex map contains `id`, return `true`;
otherwise call `hooks.get(id)` and, on `Ok(Some((msg, meta)))`, run
`insert_inner` and return `true`; else return `false`. -/
def pullMessage {T : Type} (fuel : Nat) (env : HookEnv T) (s : Tangle T)
    (id : MessageId) : Option (Bool × Tangle T × List (HookEvent T)) :=
  if (alLookup s.vertices id).isSome then
    some (true, s, [])
  else
    match env.get id with
    | Except.ok (some (msg, meta)) =>
      match insertInner fuel s id msg meta with
      | none => none
      | some (_, s, evs) => some (true, s, HookEvent.get id :: evs)
    | _ => some (false, s, [HookEvent.get id])

/-- Rust `Tangle::update_metadata(id, update)`: run `pull_message`, then when a cloned
vertex exists, apply the transform to its metadata, re-insert the vertex and
call `hooks.insert(id, message, new_metadata)` (error swallowed).  The Rust
transform `FnMut(&mut T)` is modelled as `f : T → T`; both the transform and
`update_metadata` itself return unit. -/
def Tangle.updateMetadata {T : Type} (fuel : Nat) (env : HookEnv T)
    (s : Tangle T) (id : MessageId) (f : T → T) :
    Option (Unit × Tangle T × List (HookEvent T)) :=
  match pullMessage fuel env s id with
  | none => none
  | some (_, s, evs) =>
    match alLookup s.vertices id with
    | some vtx =>
      let vtx' : Vertex T := ⟨vtx.message, f vtx.metadata⟩
      some ((),
        { s with vertices := (alInsert s.vertices id vtx').2 },
        evs ++ [HookEvent.insert id vtx.message (f vtx.metadata)])
    | none => some ((), s, evs)

end BeeTangle

namespace BeeSnapshot

/-!
The snapshot codec (`src/bee-snapshot/src/snapshot.rs`).  The sub-codecs
(`SnapshotHeader`, `SolidEntryPoint`, `Output`, `MilestoneIndex`,
`MilestoneDiff`, and the `u64` counts) live in files that are not among the
provided sources; each of them packs itself and unpacks itself back, so the
byte stream is modelled as a stream of typed tokens, one per packed value.
A token of the wrong shape (a malformed or truncated stream) makes the
corresponding `unpack` fail, modelled by the `badStream` error. -/

/-- Modelled from the spec: snapshot kind, `Full` or `Delta` (`kind.rs` is not
among the provided sources). -/
inductive Kind where
  | full
  | delta
deriving DecidableEq

/-- Modelled from the spec: the snapshot header fields (kind, timestamp,
network-id, sep-index, ledger-index); `header.rs` is not among the provided
sources.  The indexes are `MilestoneIndex` (u32) values, modelled as `Nat`;
`unpack` compares them before subtracting, so truncated subtraction agrees
with the Rust behaviour. -/
structure SnapshotHeader where
  kind : Kind
  timestamp : Nat
  networkId : Nat
  sepIndex : Nat
  ledgerIndex : Nat
deriving DecidableEq

/-- The `Snapshot` struct: header, solid entry points, outputs and milestone
diffs.  Solid entry points, outputs and milestone diffs are opaque payloads,
modelled as `Nat`. -/
structure Snapshot where
  header : SnapshotHeader
  solidEntryPoints : List Nat
  outputs : List Nat
  milestoneDiffs : List (Nat × Nat)
deriving DecidableEq

/-- The relevant variants of the `bee-snapshot` `Error` type; `badStream` stands for
any error propagated from a sub-codec. -/
inductive SnapError where
  | ledgerSepIndexesInconsistency (ledger : Nat) (sep : Nat)
  | invalidMilestoneDiffsCount (expected : Nat) (found : Nat)
  | badStream
deriving DecidableEq

/-- One packed value in the stream. -/
inductive STok where
  | hdr (h : SnapshotHeader)
  | n64 (v : Nat)
  | sep (s : Nat)
  | out (o : Nat)
  | msi (i : Nat)
  | msd (d : Nat)
deriving DecidableEq

/-- Rust `Snapshot::pack`: header; sep count; output count (Full only); milestone
diff count; then the solid entry points, the outputs (Full only) and the
(index, diff) pairs. -/
def packSnapshot (s : Snapshot) : List STok :=
  [STok.hdr s.header, STok.n64 s.solidEntryPoints.length]
    ++ (if s.header.kind = Kind.full then [STok.n64 s.outputs.length] else [])
    ++ [STok.n64 s.milestoneDiffs.length]
    ++ s.solidEntryPoints.map STok.sep
    ++ (if s.header.kind = Kind.full then s.outputs.map STok.out else [])
    ++ s.milestoneDiffs.flatMap (fun p => [STok.msi p.1, STok.msd p.2])

/-- Rust `u64::unpack`. -/
def readU64 : List STok → Except SnapError (Nat × List STok)
  | STok.n64 v :: rest => Except.ok (v, rest)
  | _ => Except.error SnapError.badStream

/-- The loop reading `sep_count` solid entry points. -/
def readSeps : Nat → List STok → Except SnapError (List Nat × List STok)
  | 0, ts => Except.ok ([], ts)
  | n + 1, STok.sep s :: rest =>
    match readSeps n rest with
    | Except.ok (l, ts) => Except.ok (s :: l, ts)
    | Except.error e => Except.error e
  | _ + 1, _ => Except.error SnapError.badStream

/-- The loop reading `output_count` outputs. -/
def readOuts : Nat → List STok → Except SnapError (List Nat × List STok)
  | 0, ts => Except.ok ([], ts)
  | n + 1, STok.out o :: rest =>
    match readOuts n rest with
    | Except.ok (l, ts) => Except.ok (o :: l, ts)
    | Except.error e => Except.error e
  | _ + 1, _ => Except.error SnapError.badStream

/-- The loop reading `milestone_diff_count` pairs of a milestone index and a
milestone diff. -/
def readDiffs : Nat → List STok → Except SnapError (List (Nat × Nat) × List STok)
  | 0, ts => Except.ok ([], ts)
  | n + 1, STok.msi i :: STok.msd d :: rest =>
    match readDiffs n rest with
    | Except.ok (l, ts) => Except.ok ((i, d) :: l, ts)
    | Except.error e => Except.error e
  | _ + 1, _ => Except.error SnapError.badStream

/-- The tail of `Snapshot::unpack` after the header checks: read the solid
entry points, the outputs (Full only) and the milestone diffs, and build the
snapshot. -/
def readBody (header : SnapshotHeader) (sepCount outputCount diffCount : Nat)
    (ts : List STok) : Except SnapError (Snapshot × List STok) :=
  match readSeps sepCount ts with
  | Except.error e => Except.error e
  | Except.ok (seps, ts) =>
    match (if header.kind = Kind.full then readOuts outputCount ts
           else Except.ok ([], ts)) with
    | Except.error e => Except.error e
    | Except.ok (outs, ts) =>
      match readDiffs diffCount ts with
      | Except.error e => Except.error e
      | Except.ok (diffs, ts) => Except.ok (⟨header, seps, outs, diffs⟩, ts)

/-- Rust `Snapshot::unpack`: read the header and the three counts (the output
count only for Full snapshots), check the ledger/sep-index consistency and
the milestone-diff count for the snapshot kind, then read the body. -/
def unpackSnapshot (ts : List STok) : Except SnapError (Snapshot × List STok) :=
  match ts with
  | STok.hdr header :: ts =>
    match readU64 ts with
    | Except.error e => Except.error e
    | Except.ok (sepCount, ts) =>
      match (if header.kind = Kind.full then readU64 ts
             else Except.ok (0, ts)) with
      | Except.error e => Except.error e
      | Except.ok (outputCount, ts) =>
        match readU64 ts with
        | Except.error e => Except.error e
        | Except.ok (diffCount, ts) =>
          match header.kind with
          | Kind.full =>
            if header.ledgerIndex < header.sepIndex then
              Except.error (SnapError.ledgerSepIndexesInconsistency
                header.ledgerIndex header.sepIndex)
            else if header.ledgerIndex - header.sepIndex ≠ diffCount then
              Except.error (SnapError.invalidMilestoneDiffsCount
                (header.ledgerIndex - header.sepIndex) diffCount)
            else
              readBody header sepCount outputCount diffCount ts
          | Kind.delta =>
            if header.sepIndex < header.ledgerIndex then
              Except.error (SnapError.ledgerSepIndexesInconsistency
                header.ledgerIndex header.sepIndex)
            else if header.sepIndex - header.ledgerIndex ≠ diffCount then
              Except.error (SnapError.invalidMilestoneDiffsCount
                (header.sepIndex - header.ledgerIndex) diffCount)
            else
              readBody header sepCount outputCount diffCount ts
  | _ => Except.error SnapError.badStream

/-- The header integrity constraints of the spec, for a snapshot whose
milestone-diff list has length `n`: for Full, ledger-index ≥ sep-index and
their difference equals `n`; for Delta, symmetric. -/
def headerConsistent (s : Snapshot) : Prop :=
  match s.header.kind with
  | Kind.full =>
    s.header.sepIndex ≤ s.header.ledgerIndex ∧
      s.header.ledgerIndex - s.header.sepIndex = s.milestoneDiffs.length
  | Kind.delta =>
    s.header.ledgerIndex ≤ s.header.sepIndex ∧
      s.header.sepIndex - s.header.ledgerIndex = s.milestoneDiffs.length

instance (s : Snapshot) : Decidable (headerConsistent s) := by
  unfold headerConsistent
  match s.header.kind with
  | Kind.full => exact instDecidableAnd
  | Kind.delta => exact instDecidableAnd

end BeeSnapshot

namespace BeeTangle

/-! Concrete scenario states used by the closed theorems below. -/

/-- A concrete message whose parents are both the id 0. -/
def msgA : Message := ⟨0, 0, 7⟩

/-- Two inserts of the same id 1 on a fresh default tangle; the value is the
second insert call. -/
def dupInsertRun : Option (Option MessageRef × Tangle Unit × List (HookEvent Unit)) :=
  match Tangle.insert 0 (Tangle.new Unit) 1 msgA () with
  | some (_, s1, _) => Tangle.insert 0 s1 1 msgA ()
  | none => none

/-- Sequential inserts of a list of ids (each with the same message body). -/
def insertAll (ids : List MessageId) (s : Tangle Unit) : Option (Tangle Unit) :=
  ids.foldl
    (fun acc id =>
      match acc with
      | none => none
      | some s =>
        match Tangle.insert 0 s id ⟨0, 0, 0⟩ () with
        | none => none
        | some (_, s, _) => some s)
    (some s)

/-- The cache state reached by `with_capacity(5)` followed by 1030 inserts of
distinct ids: 1030 vertices against a queue capacity of 6, which is exactly
the eviction threshold `cap + CACHE_THRESHOLD`. -/
def bigTangle : Tangle Unit :=
  { vertices := (List.range 1030).map (fun i => (i, ⟨⟨0, 0, 0⟩, ()⟩))
    children := []
    cacheCounter := 1030
    cacheQueue := LruCache.new 6 }

/-- A tangle whose children entry for parent 5 holds the in-cache child 1,
not marked exhaustive — the state produced by inserting a message with
parent 5. -/
def sCached : Tangle Unit := { Tangle.new Unit with children := [(5, ([1], false))] }

/-- A back-end whose approver list for id 5 is `[3]`. -/
def envFetch3 : HookEnv Unit :=
  ⟨fun _ => Except.ok none, fun id => if id = 5 then Except.ok (some [3]) else Except.ok none⟩

/-- A back-end whose `fetch_approvers` always errors. -/
def envFetchErr : HookEnv Unit := ⟨fun _ => Except.ok none, fun _ => Except.error ()⟩

end BeeTangle

namespace BeeSnapshot

/-- A concrete consistent Full snapshot: ledger-index 5, sep-index 3, two
milestone diffs. -/
def wSnap : Snapshot := ⟨⟨Kind.full, 10, 20, 3, 5⟩, [1, 2], [9], [(4, 40), (5, 50)]⟩

end BeeSnapshot

namespace BeeTangle

/-! Helper lemmas about the modelled maps, the LRU queue and the internal
tangle operations. -/

/-- The previous value returned by map insertion is the lookup result. -/
theorem alInsert_fst {V : Type} (m : List (MessageId × V)) (k : MessageId) (v : V) :
    (alInsert m k v).1 = alLookup m k := by
  induction m with
  | nil => rfl
  | cons e rest ih =>
    obtain ⟨k', v'⟩ := e
    by_cases h : k' = k
    · simp [alInsert, alLookup, h]
    · simp [alInsert, alLookup, h, ih]

/-- Looking up a key right after inserting it yields the inserted value. -/
theorem alLookup_alInsert_self {V : Type} (m : List (MessageId × V)) (k : MessageId) (v : V) :
    alLookup (alInsert m k v).2 k = some v := by
  induction m with
  | nil => simp [alInsert, alLookup]
  | cons e rest ih =>
    obtain ⟨k', v'⟩ := e
    by_cases h : k' = k
    · simp [alInsert, alLookup, h]
    · simp [alInsert, alLookup, h, ih]

/-- Inserting over an existing key keeps the map size. -/
theorem length_alInsert_some {V : Type} {m : List (MessageId × V)} {k : MessageId}
    (v : V) (h : (alLookup m k).isSome = true) :
    (alInsert m k v).2.length = m.length := by
  induction m with
  | nil => simp [alLookup] at h
  | cons e rest ih =>
    obtain ⟨k', v'⟩ := e
    by_cases hk : k' = k
    · simp [alInsert, hk]
    · simp only [alLookup, if_neg hk] at h
      simp [alInsert, hk, ih h]

/-- Inserting a fresh key grows the map by one. -/
theorem length_alInsert_none {V : Type} {m : List (MessageId × V)} {k : MessageId}
    (v : V) (h : alLookup m k = none) :
    (alInsert m k v).2.length = m.length + 1 := by
  induction m with
  | nil => rfl
  | cons e rest ih =>
    obtain ⟨k', v'⟩ := e
    by_cases hk : k' = k
    · simp [alLookup, hk] at h
    · simp only [alLookup, if_neg hk] at h
      simp [alInsert, hk, ih h]

/-- Below the hysteresis threshold, `perform_eviction` returns at once and
changes nothing. -/
theorem performEviction_noop {T : Type} (fuel : Nat) (s : Tangle T)
    (h : s.len < s.cacheQueue.cap + CACHE_THRESHOLD) :
    performEviction fuel s = some s := by
  simp [performEviction, h]

/-- The eviction loop makes no progress: the vertex count it re-reads every
iteration cannot change (the removals are deferred to a task spawned after
the loop), so as soon as the queue capacity is at most that count, no amount
of iterations reaches the `break` condition. -/
theorem evictionLoop_stuck (fuel len : Nat) (cache : LruCache) (acc : List MessageId)
    (h : cache.cap ≤ len) : evictionLoop fuel len cache acc = none := by
  induction fuel generalizing cache acc with
  | zero => rfl
  | succ fuel ih =>
    unfold evictionLoop
    rw [if_neg (by omega)]
    by_cases hc : cache.len = cache.cap
    · rw [if_pos hc]
      match hpop : cache.popLru with
      | none => rfl
      | some (k, cache') =>
        have hcap : cache'.cap = cache.cap := by
          unfold LruCache.popLru at hpop
          match hg : cache.entries.getLast? with
          | none => rw [hg] at hpop; cases hpop
          | some e =>
            rw [hg] at hpop
            obtain ⟨k0, v0⟩ := e
            cases hpop
            rfl
        exact ih _ _ (by omega)
    · rw [if_neg hc]
      exact ih _ _ h

/-- Adding children edges touches only the children map: the vertex map and
the cache queue are unchanged. -/
theorem addChildrenInner_fields {T : Type} (ps : List MessageId) (c : MessageId) :
    ∀ s : Tangle T, (addChildrenInner s ps c).1.vertices = s.vertices ∧
      (addChildrenInner s ps c).1.cacheQueue = s.cacheQueue := by
  induction ps with
  | nil => exact fun s => ⟨rfl, rfl⟩
  | cons p ps ih =>
    intro s
    have hstep : (addChildrenInner s (p :: ps) c).1 =
        (addChildrenInner
          (match alLookup s.children p with
           | some entry =>
             { s with children := (alInsert s.children p (setInsert entry.1 c, entry.2)).2 }
           | none => { s with children := (alInsert s.children p ([c], false)).2 })
          ps c).1 := by
      simp only [addChildrenInner, List.foldl_cons]
    rw [hstep]
    cases hx : alLookup s.children p with
    | some entry => exact ih _
    | none => exact ih _

/-- When the id is already present, `insert_inner` overwrites the vertex,
skips the queue and children updates, and still returns the message. -/
theorem insertInner_dup {T : Type} (fuel : Nat) (s : Tangle T) (id : MessageId)
    (msg : Message) (meta : T) (h : (alLookup s.vertices id).isSome = true)
    (hlen : s.vertices.length < s.cacheQueue.cap + CACHE_THRESHOLD) :
    insertInner fuel s id msg meta =
      some (some msg, { s with vertices := (alInsert s.vertices id ⟨msg, meta⟩).2 }, []) := by
  unfold insertInner
  have hN : (alLookup s.vertices id).isNone = false := by
    cases hx : alLookup s.vertices id
    · rw [hx] at h; cases h
    · rfl
  simp only [alInsert_fst, hN, Bool.false_eq_true, if_false]
  have hlen2 :
      ({ s with vertices := (alInsert s.vertices id ⟨msg, meta⟩).2 } : Tangle T).len <
        ({ s with vertices := (alInsert s.vertices id ⟨msg, meta⟩).2 } : Tangle T).cacheQueue.cap
          + CACHE_THRESHOLD := by
    simp only [Tangle.len, length_alInsert_some _ h]
    exact hlen
  rw [performEviction_noop fuel _ hlen2]

/-- When the id is fresh, `insert_inner` stores the vertex, enqueues it with
the next cache index, adds the two children edges, and returns the message. -/
theorem insertInner_new {T : Type} (fuel : Nat) (s : Tangle T) (id : MessageId)
    (msg : Message) (meta : T) (h : alLookup s.vertices id = none)
    (hlen : s.vertices.length + 1 < s.cacheQueue.cap + CACHE_THRESHOLD) :
    insertInner fuel s id msg meta =
      some (some msg,
        (addChildrenInner
          { s with vertices := (alInsert s.vertices id ⟨msg, meta⟩).2,
                   cacheCounter := s.cacheCounter + 1,
                   cacheQueue := s.cacheQueue.put id s.cacheCounter }
          [msg.parent1, msg.parent2] id).1,
        [HookEvent.insertApprover msg.parent1 id, HookEvent.insertApprover msg.parent2 id]) := by
  unfold insertInner
  simp only [alInsert_fst, h, Option.isNone_none, if_true, generateCacheIndex]
  have hfields := addChildrenInner_fields [msg.parent1, msg.parent2] id
    ({ s with vertices := (alInsert s.vertices id ⟨msg, meta⟩).2,
              cacheCounter := s.cacheCounter + 1,
              cacheQueue := s.cacheQueue.put id s.cacheCounter } : Tangle T)
  have hlen2 :
      (addChildrenInner
        { s with vertices := (alInsert s.vertices id ⟨msg, meta⟩).2,
                 cacheCounter := s.cacheCounter + 1,
                 cacheQueue := s.cacheQueue.put id s.cacheCounter }
        [msg.parent1, msg.parent2] id).1.len <
      (addChildrenInner
        { s with vertices := (alInsert s.vertices id ⟨msg, meta⟩).2,
                 cacheCounter := s.cacheCounter + 1,
                 cacheQueue := s.cacheQueue.put id s.cacheCounter }
        [msg.parent1, msg.parent2] id).1.cacheQueue.cap + CACHE_THRESHOLD := by
    rw [Tangle.len, hfields.1, hfields.2]
    show (alInsert s.vertices id ⟨msg, meta⟩).2.length < s.cacheQueue.cap + CACHE_THRESHOLD
    rw [length_alInsert_none _ h]
    exact hlen
  rw [performEviction_noop fuel _ hlen2]
  rfl

end BeeTangle

namespace BeeTangle

/-- Claim C1 (code_bug evidence).  The claim says `insert` returns `Some` iff
the call created a new vertex and `None` on a duplicate; the repo test
`insert_and_contains` asserts the same.  The code disagrees: `insert_inner`
ends in `Some(tx)` unconditionally, so the second insert of id 1 also returns
the message handle (while the length correctly stays 1), and its result is
not `None`. -/
theorem insert_duplicate_returns_some :
    dupInsertRun.map (fun r => (r.1, r.2.1.len)) = some (some msgA, 1) ∧
    ¬ (dupInsertRun.map (fun r => r.1) = some none) := by
  constructor
  · rfl
  · decide

/-- Claim C2 (counterexample).  The claim says a duplicate insert triggers no
hook calls at all.  In the code the write-through `hooks.insert` sits in
`insert` outside the dedup check, so the duplicate insert of id 1 still
produces exactly that hook call — its trace is not empty. -/
theorem insert_duplicate_triggers_insert_hook :
    dupInsertRun.map (fun r => r.2.2) = some [HookEvent.insert 1 msgA ()] ∧
    ¬ (dupInsertRun.map (fun r => r.2.2) = some []) := by
  constructor
  · rfl
  · decide

/-- Claim C2 (amended).  For any insert below the eviction threshold: if the
id is fresh, the call triggers exactly one `insert_approver(p, id)` per
parent slot followed by exactly one `hooks.insert(id, msg, meta)`; if the id
is already present, the call still triggers exactly one
`hooks.insert(id, msg, meta)` and no `insert_approver` calls. -/
theorem insert_hook_trace {T : Type} (fuel : Nat) (s : Tangle T) (id : MessageId)
    (msg : Message) (meta : T)
    (hlen : s.vertices.length + 1 < s.cacheQueue.cap + CACHE_THRESHOLD) :
    ((alLookup s.vertices id).isSome = true →
      (Tangle.insert fuel s id msg meta).map (fun r => r.2.2) =
        some [HookEvent.insert id msg meta]) ∧
    (alLookup s.vertices id = none →
      (Tangle.insert fuel s id msg meta).map (fun r => r.2.2) =
        some [HookEvent.insertApprover msg.parent1 id,
              HookEvent.insertApprover msg.parent2 id,
              HookEvent.insert id msg meta]) := by
  constructor
  · intro h
    unfold Tangle.insert
    rw [insertInner_dup fuel s id msg meta h (by omega)]
    rfl
  · intro h
    unfold Tangle.insert
    rw [insertInner_new fuel s id msg meta h hlen]
    rfl

/-- Witness for `insert_hook_trace` at a fresh insert of id 1 with parents 2
and 3 on an empty default tangle. -/
theorem insert_hook_trace_witness :
    (0 : Nat) + 1 < (Tangle.new Unit).cacheQueue.cap + CACHE_THRESHOLD ∧
    (Tangle.insert 0 (Tangle.new Unit) 1 ⟨2, 3, 7⟩ ()).map (fun r => r.2.2) =
      some [HookEvent.insertApprover 2 1, HookEvent.insertApprover 3 1,
            HookEvent.insert 1 ⟨2, 3, 7⟩ ()] :=
  ⟨by decide,
    (insert_hook_trace 0 (Tangle.new Unit) 1 ⟨2, 3, 7⟩ () (by decide)).2 rfl⟩

/-- Claim C3 (counterexample).  The claim says a fetch merges the back-end
list with the in-cache children, so for parent 5 with in-cache child 1 and
fetched list `[3]` the result should contain 1.  The code replaces the entry
instead: the result is exactly `[3]` and the previously added child 1 is
gone. -/
theorem getChildren_discards_cached_children :
    (Tangle.getChildren envFetch3 sCached 5).1 = some [3] ∧
    ¬ ((1 : MessageId) ∈ [3]) := by
  constructor
  · rfl
  · decide

/-- Claim C3 (amended).  If the children entry is present and marked
exhaustive, `get_children` returns the cloned in-cache set without touching
the back-end; otherwise it fetches the list L, REPLACES the entry by the
deduplicated L marked exhaustive (discarding children previously added
in-cache), and returns exactly the deduplicated L. -/
theorem getChildren_replaces_with_fetched {T : Type} (env : HookEnv T)
    (s : Tangle T) (id : MessageId) :
    (∀ cs, alLookup s.children id = some (cs, true) →
      Tangle.getChildren env s id = (some cs, s, [])) ∧
    (∀ L, optFilter (fun c => c.2) (alLookup s.children id) = none →
      env.fetchApprovers id = Except.ok (some L) →
      Tangle.getChildren env s id =
        (some (L.foldl setInsert []),
         { s with children := (alInsert s.children id (L.foldl setInsert [], true)).2 },
         [HookEvent.fetchApprovers id])) := by
  constructor
  · intro cs h
    unfold Tangle.getChildren childrenInner
    rw [h]
    rfl
  · intro L hf he
    unfold Tangle.getChildren childrenInner
    rw [hf, he]
    simp only [alLookup_alInsert_self]

/-- Witness for `getChildren_replaces_with_fetched`: an unknown parent 5 and
a back-end list `[3, 4, 3]` yield the deduplicated set `[3, 4]`, stored as
exhaustive. -/
theorem getChildren_replaces_with_fetched_witness :
    alLookup ([] : List (MessageId × (List MessageId × Bool))) 5 = none ∧
    Tangle.getChildren
        (⟨fun _ => Except.ok none, fun _ => Except.ok (some [3, 4, 3])⟩ : HookEnv Unit)
        (Tangle.new Unit) 5 =
      (some [3, 4], { Tangle.new Unit with children := [(5, ([3, 4], true))] },
        [HookEvent.fetchApprovers 5]) := by
  refine ⟨rfl, ?_⟩
  exact (getChildren_replaces_with_fetched
    (⟨fun _ => Except.ok none, fun _ => Except.ok (some [3, 4, 3])⟩ : HookEnv Unit)
    (Tangle.new Unit) 5).2 [3, 4, 3] rfl rfl

/-- Claim C4 (code_bug evidence).  The claim (and the repo test
`eviction_cap`) expects `len == 5` after `with_capacity(5)` and ten distinct
inserts.  In the code `perform_eviction` returns early while
`len < cap + 1 + CACHE_THRESHOLD` (a hysteresis of 1024), so nothing is ever
evicted in this scenario and the length is 10. -/
theorem capacity_five_ten_inserts_len_ten :
    (insertAll [1, 2, 3, 4, 5, 6, 7, 8, 9, 10] ((Tangle.new Unit).withCapacity 5)).map
        Tangle.len = some 10 ∧ (10 : Nat) ≠ 5 := by
  constructor
  · rfl
  · decide

/-- Claim C5 (code_bug evidence).  The claim says the eviction loop reaches
its stop condition `len < cap` after finitely many iterations.  Once the
hysteresis threshold is crossed (`cap + 1024 ≤ len`) that is impossible: the
loop re-reads a vertex count that cannot shrink, because the map removals are
deferred to a task spawned only after the loop; for every fuel bound the loop
is still running, so `perform_eviction` — and hence the enclosing `insert` —
never returns. -/
theorem performEviction_never_returns {T : Type} (fuel : Nat) (s : Tangle T)
    (h : s.cacheQueue.cap + CACHE_THRESHOLD ≤ s.len) :
    performEviction fuel s = none := by
  unfold performEviction
  rw [if_neg (by omega), evictionLoop_stuck fuel s.len s.cacheQueue [] (by omega)]

/-- Witness for `performEviction_never_returns` at the state reached by
`with_capacity(5)` and 1030 distinct inserts. -/
theorem performEviction_never_returns_witness :
    bigTangle.cacheQueue.cap + CACHE_THRESHOLD ≤ bigTangle.len ∧
    performEviction 7 bigTangle = none :=
  ⟨by simp [bigTangle, Tangle.len, LruCache.new, CACHE_THRESHOLD],
    performEviction_never_returns 7 bigTangle
      (by simp [bigTangle, Tangle.len, LruCache.new, CACHE_THRESHOLD])⟩

/-- Claim C6 (counterexample).  The default eviction-queue capacity is not
100,000 and `with_capacity(5)` does not give capacity 5. -/
theorem capacity_claim_false_at_defaults :
    ¬ ((Tangle.new Unit).cacheQueue.cap = 100000) ∧
    ¬ (((Tangle.new Unit).withCapacity 5).cacheQueue.cap = 5) := by
  decide

/-- Claim C6 (amended).  `new` builds the queue with capacity
`CACHE_LEN + 1 = 1,000,001` (the constant is 1,000,000, not 100,000), and
`with_capacity(n)` sets the queue capacity to `n + 1`, not `n`. -/
theorem capacity_values :
    (Tangle.new Unit).cacheQueue.cap = CACHE_LEN + 1 ∧ CACHE_LEN = 1000000 ∧
    ∀ (T : Type) (s : Tangle T) (n : Nat), (s.withCapacity n).cacheQueue.cap = n + 1 :=
  ⟨rfl, rfl, fun _ _ _ => rfl⟩

/-- Claim C7 (counterexample).  The claim says that on a back-end error the
children entry remains marked not-exhaustive.  The code stores
`(empty set, true)` instead: after the failed fetch for parent 5 the entry
flag is `true`, not `false` (and the in-cache child 1 is discarded). -/
theorem fetch_error_marks_exhaustive :
    (Tangle.getChildren envFetchErr sCached 5).1 = some [] ∧
    (alLookup (Tangle.getChildren envFetchErr sCached 5).2.1.children 5).map
        (fun e => e.2) = some true ∧
    ¬ ((some true : Option Bool) = some false) := by
  refine ⟨rfl, rfl, ?_⟩
  decide

/-- Claim C7 (amended).  When the back-end fetch errors (and the entry was
absent or not exhaustive), `get_children` returns the empty set and the
children entry is replaced by the empty set marked exhaustive. -/
theorem fetch_error_replaces_with_empty_exhaustive {T : Type} (env : HookEnv T)
    (s : Tangle T) (id : MessageId)
    (hf : optFilter (fun c => c.2) (alLookup s.children id) = none)
    (he : env.fetchApprovers id = Except.error ()) :
    Tangle.getChildren env s id =
      (some [], { s with children := (alInsert s.children id ([], true)).2 },
       [HookEvent.fetchApprovers id]) := by
  unfold Tangle.getChildren childrenInner
  rw [hf, he]
  simp only [alLookup_alInsert_self]
  rfl

/-- Witness for `fetch_error_replaces_with_empty_exhaustive` at parent 5 with
in-cache child 1 and an erroring back-end. -/
theorem fetch_error_replaces_with_empty_exhaustive_witness :
    optFilter (fun c => c.2)
        (alLookup ([(5, ([1], false))] : List (MessageId × (List MessageId × Bool))) 5) =
      none ∧
    Tangle.getChildren envFetchErr sCached 5 =
      (some [], { Tangle.new Unit with children := [(5, ([], true))] },
        [HookEvent.fetchApprovers 5]) :=
  ⟨rfl, fetch_error_replaces_with_empty_exhaustive envFetchErr sCached 5 rfl rfl⟩

/-- Claim C8 (confirmed).  For a cached id, `update_metadata(id, f)` applies
the transform to the metadata in place (the vertex is re-inserted with
`f old`), then writes `(id, message, new metadata)` through to the back-end
via `hooks.insert`, and returns unit — which is exactly the result the Rust
transform `FnMut(&mut T)` produces. -/
theorem updateMetadata_read_apply_write {T : Type} (fuel : Nat) (env : HookEnv T)
    (s : Tangle T) (id : MessageId) (f : T → T) (vtx : Vertex T)
    (h : alLookup s.vertices id = some vtx) :
    Tangle.updateMetadata fuel env s id f =
      some ((),
        { s with vertices := (alInsert s.vertices id ⟨vtx.message, f vtx.metadata⟩).2 },
        [HookEvent.insert id vtx.message (f vtx.metadata)]) := by
  unfold Tangle.updateMetadata pullMessage
  simp only [h, Option.isSome_some, if_true, List.nil_append]

/-- Witness for `updateMetadata_read_apply_write`: metadata 10 at id 1 is
transformed by `+ 5`, stored as 15, and written through. -/
theorem updateMetadata_read_apply_write_witness :
    alLookup [(1, (⟨⟨0, 0, 7⟩, 10⟩ : Vertex Nat))] 1 = some ⟨⟨0, 0, 7⟩, 10⟩ ∧
    Tangle.updateMetadata 0 (nullEnv Nat)
        { Tangle.new Nat with vertices := [(1, ⟨⟨0, 0, 7⟩, 10⟩)] } 1 (fun m => m + 5) =
      some ((), { Tangle.new Nat with vertices := [(1, ⟨⟨0, 0, 7⟩, 15⟩)] },
        [HookEvent.insert 1 ⟨0, 0, 7⟩ 15]) :=
  ⟨rfl, updateMetadata_read_apply_write 0 (nullEnv Nat)
    { Tangle.new Nat with vertices := [(1, ⟨⟨0, 0, 7⟩, 10⟩)] } 1 (fun m => m + 5)
    ⟨⟨0, 0, 7⟩, 10⟩ rfl⟩

end BeeTangle

namespace BeeSnapshot

/-- Reading back a packed run of solid entry points returns them and the
remaining stream. -/
theorem readSeps_roundtrip (l : List Nat) (rest : List STok) :
    readSeps l.length (l.map STok.sep ++ rest) = Except.ok (l, rest) := by
  induction l with
  | nil => rfl
  | cons s l ih => simp [readSeps, ih]

/-- Reading back a packed run of outputs returns them and the remaining
stream. -/
theorem readOuts_roundtrip (l : List Nat) (rest : List STok) :
    readOuts l.length (l.map STok.out ++ rest) = Except.ok (l, rest) := by
  induction l with
  | nil => rfl
  | cons o l ih => simp [readOuts, ih]

/-- Reading back a packed run of milestone-diff pairs returns them and the
remaining stream. -/
theorem readDiffs_roundtrip (l : List (Nat × Nat)) (rest : List STok) :
    readDiffs l.length (l.flatMap (fun p => [STok.msi p.1, STok.msd p.2]) ++ rest) =
      Except.ok (l, rest) := by
  induction l with
  | nil => rfl
  | cons p l ih =>
    simp only [List.flatMap_cons, List.append_assoc, List.cons_append, List.length_cons]
    simp only [readDiffs, List.nil_append]
    rw [ih]

/-- Reading back the packed body of a Full snapshot reconstructs it. -/
theorem readBody_full (header : SnapshotHeader) (hk : header.kind = Kind.full)
    (seps outs : List Nat) (diffs : List (Nat × Nat)) (rest : List STok) :
    readBody header seps.length outs.length diffs.length
      (seps.map STok.sep ++ (outs.map STok.out ++
        (diffs.flatMap (fun p => [STok.msi p.1, STok.msd p.2]) ++ rest))) =
      Except.ok (⟨header, seps, outs, diffs⟩, rest) := by
  simp [readBody, hk, readSeps_roundtrip, readOuts_roundtrip, readDiffs_roundtrip]

/-- Reading back the packed body of a Delta snapshot reconstructs it with an
empty output list (Delta bodies carry no outputs). -/
theorem readBody_delta (header : SnapshotHeader) (hk : header.kind = Kind.delta)
    (seps : List Nat) (outputCount : Nat) (diffs : List (Nat × Nat)) (rest : List STok) :
    readBody header seps.length outputCount diffs.length
      (seps.map STok.sep ++
        (diffs.flatMap (fun p => [STok.msi p.1, STok.msd p.2]) ++ rest)) =
      Except.ok (⟨header, seps, [], diffs⟩, rest) := by
  simp [readBody, hk, readSeps_roundtrip, readDiffs_roundtrip]

/-- Evaluation of `unpack` on the output of `pack` for a Full snapshot: the
result is exactly the header guards followed by the reconstructed value. -/
theorem unpack_pack_full (s : Snapshot) (hk : s.header.kind = Kind.full) :
    unpackSnapshot (packSnapshot s) =
      if s.header.ledgerIndex < s.header.sepIndex then
        Except.error (SnapError.ledgerSepIndexesInconsistency s.header.ledgerIndex s.header.sepIndex)
      else if s.header.ledgerIndex - s.header.sepIndex ≠ s.milestoneDiffs.length then
        Except.error (SnapError.invalidMilestoneDiffsCount
          (s.header.ledgerIndex - s.header.sepIndex) s.milestoneDiffs.length)
      else Except.ok (s, []) := by
  have hpack : packSnapshot s =
      STok.hdr s.header :: STok.n64 s.solidEntryPoints.length ::
      STok.n64 s.outputs.length :: STok.n64 s.milestoneDiffs.length ::
      (s.solidEntryPoints.map STok.sep ++ (s.outputs.map STok.out ++
        (s.milestoneDiffs.flatMap (fun p => [STok.msi p.1, STok.msd p.2]) ++ []))) := by
    simp [packSnapshot, hk]
  rw [hpack]
  unfold unpackSnapshot
  simp only [readU64, hk, reduceIte]
  rw [readBody_full s.header hk]

/-- Evaluation of `unpack` on the output of `pack` for a Delta snapshot: the
header guards followed by the reconstructed value, whose output list is empty
because Delta snapshots pack no outputs. -/
theorem unpack_pack_delta (s : Snapshot) (hk : s.header.kind = Kind.delta) :
    unpackSnapshot (packSnapshot s) =
      if s.header.sepIndex < s.header.ledgerIndex then
        Except.error (SnapError.ledgerSepIndexesInconsistency s.header.ledgerIndex s.header.sepIndex)
      else if s.header.sepIndex - s.header.ledgerIndex ≠ s.milestoneDiffs.length then
        Except.error (SnapError.invalidMilestoneDiffsCount
          (s.header.sepIndex - s.header.ledgerIndex) s.milestoneDiffs.length)
      else Except.ok (⟨s.header, s.solidEntryPoints, [], s.milestoneDiffs⟩, []) := by
  have hpack : packSnapshot s =
      STok.hdr s.header :: STok.n64 s.solidEntryPoints.length ::
      STok.n64 s.milestoneDiffs.length ::
      (s.solidEntryPoints.map STok.sep ++
        (s.milestoneDiffs.flatMap (fun p => [STok.msi p.1, STok.msd p.2]) ++ [])) := by
    simp [packSnapshot, hk]
  rw [hpack]
  unfold unpackSnapshot
  simp only [readU64, hk]
  simp only [reduceCtorEq, ite_false, if_false]
  rw [readBody_delta s.header hk]

/-- Claim C9 (confirmed).  On a packed snapshot stream, `unpack` returns an
error exactly when the header integrity constraints are violated: for Full,
ledger-index < sep-index or their difference differs from the milestone-diff
count; for Delta, symmetric. -/
theorem unpack_pack_error_iff_inconsistent (s : Snapshot) :
    (∃ e, unpackSnapshot (packSnapshot s) = Except.error e) ↔ ¬ headerConsistent s := by
  cases hk : s.header.kind
  case full =>
    rw [unpack_pack_full s hk]
    unfold headerConsistent
    rw [hk]
    by_cases h1 : s.header.ledgerIndex < s.header.sepIndex
    · rw [if_pos h1]
      constructor
      · rintro - ⟨hle, -⟩
        omega
      · intro _
        exact ⟨_, rfl⟩
    · by_cases h2 : s.header.ledgerIndex - s.header.sepIndex = s.milestoneDiffs.length
      · rw [if_neg h1, if_neg (not_not_intro h2)]
        constructor
        · rintro ⟨e, he⟩
          simp at he
        · intro hn
          exact absurd ⟨by omega, h2⟩ hn
      · rw [if_neg h1, if_pos h2]
        constructor
        · rintro - ⟨-, heq⟩
          exact h2 heq
        · intro _
          exact ⟨_, rfl⟩
  case delta =>
    rw [unpack_pack_delta s hk]
    unfold headerConsistent
    rw [hk]
    by_cases h1 : s.header.sepIndex < s.header.ledgerIndex
    · rw [if_pos h1]
      constructor
      · rintro - ⟨hle, -⟩
        omega
      · intro _
        exact ⟨_, rfl⟩
    · by_cases h2 : s.header.sepIndex - s.header.ledgerIndex = s.milestoneDiffs.length
      · rw [if_neg h1, if_neg (not_not_intro h2)]
        constructor
        · rintro ⟨e, he⟩
          simp at he
        · intro hn
          exact absurd ⟨by omega, h2⟩ hn
      · rw [if_neg h1, if_pos h2]
        constructor
        · rintro - ⟨-, heq⟩
          exact h2 heq
        · intro _
          exact ⟨_, rfl⟩

/-- Claim C10 (confirmed).  For every snapshot satisfying the header
integrity constraints, with empty outputs when its kind is Delta, unpacking
the packed stream yields the original snapshot with nothing left over. -/
theorem pack_unpack_roundtrip (s : Snapshot) (h : headerConsistent s)
    (hd : s.header.kind = Kind.delta → s.outputs = []) :
    unpackSnapshot (packSnapshot s) = Except.ok (s, []) := by
  cases hk : s.header.kind
  case full =>
    rw [unpack_pack_full s hk]
    unfold headerConsistent at h
    rw [hk] at h
    rw [if_neg (by omega), if_neg (not_not_intro h.2)]
  case delta =>
    rw [unpack_pack_delta s hk]
    unfold headerConsistent at h
    rw [hk] at h
    rw [if_neg (by omega), if_neg (not_not_intro h.2)]
    have ho := hd hk
    cases s with
    | mk header seps outs diffs =>
      simp only at ho
      rw [ho]

/-- Witness for `pack_unpack_roundtrip` at the concrete consistent Full
snapshot `wSnap`. -/
theorem pack_unpack_roundtrip_witness :
    headerConsistent wSnap ∧
    unpackSnapshot (packSnapshot wSnap) = Except.ok (wSnap, []) :=
  ⟨by decide, pack_unpack_roundtrip wSnap (by decide) (by decide)⟩

end BeeSnapshot
